import Mathlib

/-!
Shallow embedding of the eye/ripple animation core of
`src/analog_digital_arduinosketch/analog_digital/digital.cpp`.

Randomness is modelled by an explicit stream of naturals (`Rng`);
`randIn lo hi` mirrors Arduino's `random(lo, hi)` (result in `[lo, hi)`
for a nonempty range) and advances the stream by one draw.
-/

namespace AnalogDigital

/-- A stream of raw random draws: the next draw is `g 0`, the advanced
stream shifts the index by one. -/
def Rng : Type := Nat → Nat

/-- `random(lo, hi)`: `lo + draw % (hi - lo)`, together with the advanced
stream. For `lo < hi` the result lies in `[lo, hi)`. -/
def randIn (lo hi : Int) (g : Rng) : Int × Rng :=
  (lo + (↑(g 0 % (hi - lo).toNat) : Int), fun n => g (n + 1))

/-- `EyeState` — the eye lifecycle state machine of `digital.cpp`. -/
inductive EyeState where
  | Inactive
  | Opening
  | Open
  | BlinkClosing
  | BlinkOpening
  | Closing
deriving DecidableEq, BEq

/-- `struct Eye` of `digital.cpp`. -/
structure Eye where
  x : Int
  y : Int
  state : EyeState
  openAmount : Int
  maxOpen : Int
  halfHeight : Int
  timer : Int
  blinksLeft : Int
  irisX : Int
  irisY : Int
  irisTargetX : Int
  irisTargetY : Int
  lookTimer : Int
deriving DecidableEq

/-- `struct Ripple` of `digital.cpp`. -/
structure Ripple where
  cx : Int
  cy : Int
  radius : Int
  speed : Int
  active : Bool
deriving DecidableEq

/-- `MAX_EYES` -/
def MAX_EYES : Nat := 8
/-- `EYE_HALF_HEIGHT` -/
def EYE_HALF_HEIGHT : Int := 25
/-- `EYE_MIN_SPACING` -/
def EYE_MIN_SPACING : Nat := 55
/-- `EYE_OPEN_SPEED` -/
def EYE_OPEN_SPEED : Int := 2
/-- `MAX_RIPPLES` -/
def MAX_RIPPLES : Nat := 12

/-- The inner slot-search of `spawnRipples`: find the first inactive slot,
fill it with a ripple centred on the eye (radius = the eye's halfHeight,
speed = `random(1,4)`), and stop; if every slot is active the pool and the
stream are unchanged (the attempt is dropped). -/
def spawnOneRipple (eye : Eye) : List Ripple → Rng → List Ripple × Rng
  | [], g => ([], g)
  | r :: rs, g =>
    if r.active then
      let p := spawnOneRipple eye rs g
      (r :: p.1, p.2)
    else
      let p := randIn 1 4 g
      ({ cx := eye.x, cy := eye.y, radius := eye.halfHeight,
         speed := p.1, active := true } :: rs, p.2)

/-- The outer loop of `spawnRipples`: `count` spawn attempts. -/
def spawnRippleLoop (eye : Eye) : Nat → List Ripple → Rng → List Ripple × Rng
  | 0, rs, g => (rs, g)
  | n + 1, rs, g =>
    let p := spawnOneRipple eye rs g
    spawnRippleLoop eye n p.1 p.2

/-- `spawnRipples(eye)`: `count = random(1, 4)` attempts, each filling the
first inactive slot. -/
def spawnRipples (eye : Eye) (rs : List Ripple) (g : Rng) : List Ripple × Rng :=
  let c := randIn 1 4 g
  spawnRippleLoop eye c.1.toNat rs c.2

/-- The per-slot body of `updateRipples`: an active ripple grows by its
speed, and is deactivated when the new radius exceeds `maxDim`. -/
def updateRipple (maxDim : Int) (r : Ripple) : Ripple :=
  if r.active then
    let r1 : Ripple := { r with radius := r.radius + r.speed }
    if maxDim < r1.radius then { r1 with active := false } else r1
  else r

/-- `updateRipples()`, with `maxDim = max(matrix.width(), matrix.height())`
passed in. -/
def updateRipples (maxDim : Int) (rs : List Ripple) : List Ripple :=
  rs.map (updateRipple maxDim)

/-- The unit-step pursuit at the end of `updateIris`: each axis of the iris
offset moves one pixel toward its target. -/
def irisDrift (e : Eye) : Eye :=
  let e1 :=
    if e.irisX < e.irisTargetX then { e with irisX := e.irisX + 1 }
    else if e.irisTargetX < e.irisX then { e with irisX := e.irisX - 1 }
    else e
  if e1.irisY < e1.irisTargetY then { e1 with irisY := e1.irisY + 1 }
  else if e1.irisTargetY < e1.irisY then { e1 with irisY := e1.irisY - 1 }
  else e1

/-- `updateIris(eye)`: a no-op when `openAmount <= 3`; otherwise decrement
`lookTimer`, retarget when it fires, and drift one pixel toward the target. -/
def updateIris (e : Eye) (g : Rng) : Eye × Rng :=
  if e.openAmount ≤ 3 then (e, g)
  else
    let e1 : Eye := { e with lookTimer := e.lookTimer - 1 }
    if e1.lookTimer ≤ 0 then
      let maxH := e.openAmount.tdiv 3
      let maxV := e.halfHeight.tdiv 5
      let px := randIn (-maxH) (maxH + 1) g
      let py := randIn (-maxV) (maxV + 1) px.2
      let pt := randIn 30 120 py.2
      (irisDrift { e1 with irisTargetX := px.1, irisTargetY := py.1,
                           lookTimer := pt.1 }, pt.2)
    else
      (irisDrift e1, g)

/-- `updateEye(eye)`: one frame of the eye state machine, threading the
ripple pool (a blink spawns ripples) and the random stream. -/
def updateEye (e : Eye) (rs : List Ripple) (g : Rng) : Eye × List Ripple × Rng :=
  match e.state with
  | .Opening =>
    let oa := e.openAmount + EYE_OPEN_SPEED
    if e.maxOpen ≤ oa then
      let pt := randIn 60 180 g
      let p := updateIris { e with openAmount := e.maxOpen, state := .Open,
                                   timer := pt.1 } pt.2
      (p.1, rs, p.2)
    else
      let p := updateIris { e with openAmount := oa } g
      (p.1, rs, p.2)
  | .Open =>
    let t := e.timer - 1
    if t ≤ 0 then
      if 0 < e.blinksLeft then
        let e1 : Eye := { e with timer := t, state := .BlinkClosing,
                                 blinksLeft := e.blinksLeft - 1 }
        let pr := spawnRipples e1 rs g
        let p := updateIris e1 pr.2
        (p.1, pr.1, p.2)
      else
        let e1 : Eye := { e with timer := t, state := .Closing }
        let p := updateIris e1 g
        (p.1, rs, p.2)
    else
      let p := updateIris { e with timer := t } g
      (p.1, rs, p.2)
  | .BlinkClosing =>
    let oa := e.openAmount - EYE_OPEN_SPEED
    if oa ≤ 0 then ({ e with openAmount := 0, state := .BlinkOpening }, rs, g)
    else ({ e with openAmount := oa }, rs, g)
  | .BlinkOpening =>
    let oa := e.openAmount + EYE_OPEN_SPEED
    if e.maxOpen ≤ oa then
      let pt := randIn 60 180 g
      let p := updateIris { e with openAmount := e.maxOpen, state := .Open,
                                   timer := pt.1 } pt.2
      (p.1, rs, p.2)
    else
      let p := updateIris { e with openAmount := oa } g
      (p.1, rs, p.2)
  | .Closing =>
    let oa := e.openAmount - EYE_OPEN_SPEED
    if oa ≤ 0 then ({ e with openAmount := 0, state := .Inactive }, rs, g)
    else ({ e with openAmount := oa }, rs, g)
  | .Inactive => (e, rs, g)

/-- Index of the first slot with `state == EYE_INACTIVE` (the slot-search
loop at the head of `spawnEye`). -/
def firstInactiveEye : List Eye → Option Nat
  | [] => none
  | e :: es =>
    if e.state = .Inactive then some 0 else (firstInactiveEye es).map (· + 1)

/-- The inner validity loop of `spawnEye`: is some other active eye closer
than `EYE_MIN_SPACING` to the candidate `y`?  `k` is the index of the first
listed slot, `i` the slot being filled. -/
def tooClose (i : Nat) (y : Int) : Nat → List Eye → Bool
  | _, [] => false
  | k, e :: es =>
    (decide (k ≠ i) && decide (e.state ≠ .Inactive)
      && decide ((y - e.y).natAbs < EYE_MIN_SPACING))
    || tooClose i y (k + 1) es

/-- The rejection-sampling loop of `spawnEye`: up to `n` attempts to draw a
`y` in the safe band `[EYE_HALF_HEIGHT+2, height-EYE_HALF_HEIGHT-2)` that is
not too close to any other active eye. -/
def tryPlaceY (h : Int) (es : List Eye) (i : Nat) : Nat → Rng → Option Int × Rng
  | 0, g => (none, g)
  | n + 1, g =>
    let p := randIn (EYE_HALF_HEIGHT + 2) (h - EYE_HALF_HEIGHT - 2) g
    if tooClose i p.1 0 es then tryPlaceY h es i n p.2 else (some p.1, p.2)

/-- `spawnEye(matrix)` with `w = matrix.width()`, `h = matrix.height()`:
fill the first inactive slot with a freshly initialized eye at a
rejection-sampled `y`; abandon the call (pool unchanged) when there is no
free slot or all 20 attempts fail. -/
def spawnEye (w h : Int) (es : List Eye) (g : Rng) : List Eye × Rng :=
  match firstInactiveEye es with
  | none => (es, g)
  | some i =>
    let p := tryPlaceY h es i 20 g
    match p.1 with
    | none => (es, p.2)
    | some newY =>
      let pb := randIn 1 5 p.2
      let pl := randIn 20 60 pb.2
      (es.set i
        { x := w.tdiv 2, y := newY, state := .Opening, openAmount := 0,
          maxOpen := w.tdiv 2 - 2, halfHeight := EYE_HALF_HEIGHT, timer := 0,
          blinksLeft := pb.1, irisX := 0, irisY := 0, irisTargetX := 0,
          irisTargetY := 0, lookTimer := pl.1 }, pl.2)

/-- The eye update loop of `drawDigital` (lines 470-476): every slot with
`state != EYE_INACTIVE` is advanced by `updateEye`. -/
def updateEyes : List Eye → List Ripple → Rng → List Eye × List Ripple × Rng
  | [], rs, g => ([], rs, g)
  | e :: es, rs, g =>
    if e.state = .Inactive then
      let p := updateEyes es rs g
      (e :: p.1, p.2.1, p.2.2)
    else
      let q := updateEye e rs g
      let p := updateEyes es q.2.1 q.2.2
      (q.1 :: p.1, p.2.1, p.2.2)

/-- Number of slots with `state != EYE_INACTIVE` (the `activeEyes` count of
`drawDigital`). -/
def countActive : List Eye → Nat
  | [] => 0
  | e :: es => (if e.state = .Inactive then 0 else 1) + countActive es

/-- The `while (activeEyes < 2)` loop of `drawDigital`, unrolled by its
iteration count: the counter is incremented whether or not the spawn
succeeded, so the loop body runs exactly `2 - activeEyes` times. -/
def spawnLoop2 (w h : Int) : Nat → List Eye → Rng → List Eye × Rng
  | 0, es, g => (es, g)
  | n + 1, es, g =>
    let p := spawnEye w h es g
    spawnLoop2 w h n p.1 p.2

/-- The population-replenishment tail of `drawDigital` (lines 478-486):
the while-loop topping the `activeEyes` counter up to 2 (spawning on each
iteration whether or not the spawn succeeds), then the probabilistic
`random(90) == 0` extra spawn while the counter is below 5.  `a` is the
`activeEyes` counter accumulated by the update loop: the count of slots
that were active before their own update. -/
def ensurePopulation (w h : Int) (a : Nat) (es : List Eye) (g : Rng) :
    List Eye × Rng :=
  let p := spawnLoop2 w h (2 - a) es g
  if max a 2 < 5 then
    let pr := randIn 0 90 p.2
    if pr.1 = 0 then spawnEye w h p.1 pr.2 else (p.1, pr.2)
  else p

/-- The whole eyes section of `drawDigital` (lines 468-486): count and
update the active eyes, then replenish the population.  Returns the eye
pool with the random stream, and the ripple pool (blinks during the update
may have spawned into it). -/
def drawDigitalEyes (w h : Int) (es : List Eye) (rs : List Ripple) (g : Rng) :
    (List Eye × Rng) × List Ripple :=
  let a := countActive es
  let p := updateEyes es rs g
  (ensurePopulation w h a p.1 p.2.2, p.2.1)

/-- One frame step of a single eye, packaged for iteration. -/
def stepEye (s : Eye × List Ripple × Rng) : Eye × List Ripple × Rng :=
  updateEye s.1 s.2.1 s.2.2

/-- `n` repeated `updateEye` frames on one eye. -/
def iterEye : Nat → Eye × List Ripple × Rng → Eye × List Ripple × Rng
  | 0, s => s
  | n + 1, s => stepEye (iterEye n s)

/-- The successor relation of the eye state machine realized by
`updateEye`: per source state, the possible states one frame later. -/
def allowedNext : EyeState → EyeState → Prop
  | .Inactive, s => s = .Inactive
  | .Opening, s => s = .Opening ∨ s = .Open
  | .Open, s => s = .Open ∨ s = .BlinkClosing ∨ s = .Closing
  | .BlinkClosing, s => s = .BlinkClosing ∨ s = .BlinkOpening
  | .BlinkOpening, s => s = .BlinkOpening ∨ s = .Open
  | .Closing, s => s = .Closing ∨ s = .Inactive

/-- Pairwise vertical spacing of simultaneously active eyes. -/
def spacingOK (es : List Eye) : Prop :=
  ∀ i j : Fin es.length, i.1 ≠ j.1 →
    (es.get i).state ≠ .Inactive → (es.get j).state ≠ .Inactive →
    EYE_MIN_SPACING ≤ ((es.get i).y - (es.get j).y).natAbs

instance spacingOK_decidable (es : List Eye) : Decidable (spacingOK es) :=
  inferInstanceAs (Decidable (∀ i j : Fin es.length, i.1 ≠ j.1 →
    (es.get i).state ≠ .Inactive → (es.get j).state ≠ .Inactive →
    EYE_MIN_SPACING ≤ ((es.get i).y - (es.get j).y).natAbs))

/-- A zeroed (inactive) eye slot, as C++ zero-initializes the statics;
state 0 is `EYE_INACTIVE`. -/
def eyeZero : Eye :=
  { x := 0, y := 0, state := .Inactive, openAmount := 0, maxOpen := 0,
    halfHeight := 0, timer := 0, blinksLeft := 0, irisX := 0, irisY := 0,
    irisTargetX := 0, irisTargetY := 0, lookTimer := 0 }

/-- The zero-initialized global eye pool. -/
def initEyes : List Eye := List.replicate MAX_EYES eyeZero

/-- A concrete random stream. -/
def g0 : Rng := fun _ => 0

/-- A concrete eye, fully open and mid-lifecycle, for instantiations. -/
def eyeOpen0 : Eye :=
  { x := 32, y := 31, state := .Open, openAmount := 30, maxOpen := 30,
    halfHeight := 25, timer := 1, blinksLeft := 2, irisX := 1, irisY := 0,
    irisTargetX := 2, irisTargetY := 1, lookTimer := 5 }

/-! ### Field preservation of the iris update -/

@[simp] lemma irisDrift_x (e : Eye) : (irisDrift e).x = e.x := by
  unfold irisDrift
  dsimp only
  repeat' split
  all_goals rfl

@[simp] lemma irisDrift_y (e : Eye) : (irisDrift e).y = e.y := by
  unfold irisDrift
  dsimp only
  repeat' split
  all_goals rfl

@[simp] lemma irisDrift_state (e : Eye) : (irisDrift e).state = e.state := by
  unfold irisDrift
  dsimp only
  repeat' split
  all_goals rfl

@[simp] lemma irisDrift_openAmount (e : Eye) : (irisDrift e).openAmount = e.openAmount := by
  unfold irisDrift
  dsimp only
  repeat' split
  all_goals rfl

@[simp] lemma irisDrift_maxOpen (e : Eye) : (irisDrift e).maxOpen = e.maxOpen := by
  unfold irisDrift
  dsimp only
  repeat' split
  all_goals rfl

@[simp] lemma irisDrift_halfHeight (e : Eye) : (irisDrift e).halfHeight = e.halfHeight := by
  unfold irisDrift
  dsimp only
  repeat' split
  all_goals rfl

@[simp] lemma irisDrift_timer (e : Eye) : (irisDrift e).timer = e.timer := by
  unfold irisDrift
  dsimp only
  repeat' split
  all_goals rfl

@[simp] lemma irisDrift_blinksLeft (e : Eye) : (irisDrift e).blinksLeft = e.blinksLeft := by
  unfold irisDrift
  dsimp only
  repeat' split
  all_goals rfl

@[simp] lemma updateIris_x (e : Eye) (g : Rng) : (updateIris e g).1.x = e.x := by
  unfold updateIris
  dsimp only
  repeat' split
  all_goals simp

@[simp] lemma updateIris_y (e : Eye) (g : Rng) : (updateIris e g).1.y = e.y := by
  unfold updateIris
  dsimp only
  repeat' split
  all_goals simp

@[simp] lemma updateIris_state (e : Eye) (g : Rng) : (updateIris e g).1.state = e.state := by
  unfold updateIris
  dsimp only
  repeat' split
  all_goals simp

@[simp] lemma updateIris_openAmount (e : Eye) (g : Rng) :
    (updateIris e g).1.openAmount = e.openAmount := by
  unfold updateIris
  dsimp only
  repeat' split
  all_goals simp

@[simp] lemma updateIris_maxOpen (e : Eye) (g : Rng) :
    (updateIris e g).1.maxOpen = e.maxOpen := by
  unfold updateIris
  dsimp only
  repeat' split
  all_goals simp

@[simp] lemma updateIris_halfHeight (e : Eye) (g : Rng) :
    (updateIris e g).1.halfHeight = e.halfHeight := by
  unfold updateIris
  dsimp only
  repeat' split
  all_goals simp

@[simp] lemma updateIris_timer (e : Eye) (g : Rng) : (updateIris e g).1.timer = e.timer := by
  unfold updateIris
  dsimp only
  repeat' split
  all_goals simp

@[simp] lemma updateIris_blinksLeft (e : Eye) (g : Rng) :
    (updateIris e g).1.blinksLeft = e.blinksLeft := by
  unfold updateIris
  dsimp only
  repeat' split
  all_goals simp

/-! ### Field preservation of the eye update -/

lemma updateEye_x (e : Eye) (rs : List Ripple) (g : Rng) :
    (updateEye e rs g).1.x = e.x := by
  unfold updateEye
  cases e.state <;> dsimp only <;> (repeat' split) <;> simp

lemma updateEye_y (e : Eye) (rs : List Ripple) (g : Rng) :
    (updateEye e rs g).1.y = e.y := by
  unfold updateEye
  cases e.state <;> dsimp only <;> (repeat' split) <;> simp

lemma updateEye_maxOpen (e : Eye) (rs : List Ripple) (g : Rng) :
    (updateEye e rs g).1.maxOpen = e.maxOpen := by
  unfold updateEye
  cases e.state <;> dsimp only <;> (repeat' split) <;> simp

lemma updateEye_halfHeight (e : Eye) (rs : List Ripple) (g : Rng) :
    (updateEye e rs g).1.halfHeight = e.halfHeight := by
  unfold updateEye
  cases e.state <;> dsimp only <;> (repeat' split) <;> simp

lemma updateEye_of_inactive (e : Eye) (rs : List Ripple) (g : Rng)
    (h : e.state = .Inactive) : updateEye e rs g = (e, rs, g) := by
  simp [updateEye, h]

/-- C2: One frame of `updateEye` moves an eye's state only along the
lifecycle automaton Opening → Open → (BlinkClosing → BlinkOpening → Open)*
→ Closing → Inactive: from BlinkClosing the only move is to BlinkOpening
(or staying), never directly to Open, Closing or Inactive, and no state
ever transitions into Opening, so a spawned eye's state trace is exactly
one path of that shape until it returns to Inactive. -/
theorem updateEye_state_allowedNext (e : Eye) (rs : List Ripple) (g : Rng) :
    allowedNext e.state (updateEye e rs g).1.state := by
  unfold updateEye
  cases hs : e.state <;> dsimp only <;> (repeat' split) <;>
    simp [allowedNext, hs]

/-- C4: While a ripple is active with speed at least 1, one `updateRipples`
frame grows its radius by exactly its speed (hence strictly), and the
ripple is deactivated on exactly the first frame on which the new radius
exceeds the largest display dimension `maxDim` — it stays active whenever
the new radius is still at most `maxDim`.  `updateRipples` applies this
per-slot step to every slot. -/
theorem updateRipple_growth (maxDim : Int) (rs : List Ripple) (r : Ripple)
    (ha : r.active = true) (hs : 1 ≤ r.speed) :
    (updateRipple maxDim r).radius = r.radius + r.speed
    ∧ r.radius < (updateRipple maxDim r).radius
    ∧ ((updateRipple maxDim r).active = false ↔ maxDim < r.radius + r.speed)
    ∧ updateRipples maxDim rs = rs.map (updateRipple maxDim) := by
  unfold updateRipple
  rw [if_pos ha]
  dsimp only
  split
  · exact ⟨rfl, by dsimp only; omega, by simp [*], rfl⟩
  · refine ⟨rfl, by dsimp only; omega, ?_, rfl⟩
    simp [ha]
    omega

/-- A concrete active ripple for instantiations. -/
def ripple0 : Ripple := { cx := 32, cy := 31, radius := 20, speed := 2, active := true }

/-- C4 witness: an active ripple of radius 20, speed 2 on a 64-wide
display grows to 22 and stays active. -/
theorem updateRipple_growth_witness :
    (updateRipple 64 ripple0).radius = ripple0.radius + ripple0.speed
    ∧ ripple0.radius < (updateRipple 64 ripple0).radius
    ∧ ((updateRipple 64 ripple0).active = false
        ↔ (64 : Int) < ripple0.radius + ripple0.speed)
    ∧ updateRipples 64 [] = List.map (updateRipple 64) [] :=
  updateRipple_growth 64 [] ripple0 rfl (by decide)

/-- C10: For an eye in state BlinkClosing or Closing, `updateEye` leaves
every iris field (irisX, irisY, irisTargetX, irisTargetY, lookTimer)
unchanged: those branches never invoke `updateIris`; moreover `updateIris`
itself is a no-op whenever `openAmount ≤ 3`. -/
theorem updateEye_iris_frozen (e : Eye) (rs : List Ripple) (g : Rng)
    (hst : e.state = .BlinkClosing ∨ e.state = .Closing) :
    (updateEye e rs g).1.irisX = e.irisX
    ∧ (updateEye e rs g).1.irisY = e.irisY
    ∧ (updateEye e rs g).1.irisTargetX = e.irisTargetX
    ∧ (updateEye e rs g).1.irisTargetY = e.irisTargetY
    ∧ (updateEye e rs g).1.lookTimer = e.lookTimer
    ∧ (∀ e2 : Eye, ∀ g2 : Rng, e2.openAmount ≤ 3 → updateIris e2 g2 = (e2, g2)) := by
  have hno : ∀ e2 : Eye, ∀ g2 : Rng, e2.openAmount ≤ 3 → updateIris e2 g2 = (e2, g2) := by
    intro e2 g2 h3
    unfold updateIris
    rw [if_pos h3]
  refine ⟨?_, ?_, ?_, ?_, ?_, hno⟩ <;>
    (rcases hst with h | h <;> simp only [updateEye, h] <;>
      (repeat' split) <;> simp)

/-- C10 witness: a concrete BlinkClosing eye keeps all its iris fields. -/
theorem updateEye_iris_frozen_witness :
    (updateEye { eyeOpen0 with state := .BlinkClosing } [] g0).1.irisX
        = ({ eyeOpen0 with state := .BlinkClosing } : Eye).irisX
    ∧ (updateEye { eyeOpen0 with state := .BlinkClosing } [] g0).1.irisY
        = ({ eyeOpen0 with state := .BlinkClosing } : Eye).irisY
    ∧ (updateEye { eyeOpen0 with state := .BlinkClosing } [] g0).1.irisTargetX
        = ({ eyeOpen0 with state := .BlinkClosing } : Eye).irisTargetX
    ∧ (updateEye { eyeOpen0 with state := .BlinkClosing } [] g0).1.irisTargetY
        = ({ eyeOpen0 with state := .BlinkClosing } : Eye).irisTargetY
    ∧ (updateEye { eyeOpen0 with state := .BlinkClosing } [] g0).1.lookTimer
        = ({ eyeOpen0 with state := .BlinkClosing } : Eye).lookTimer
    ∧ (∀ e2 : Eye, ∀ g2 : Rng, e2.openAmount ≤ 3 → updateIris e2 g2 = (e2, g2)) :=
  updateEye_iris_frozen { eyeOpen0 with state := .BlinkClosing } [] g0
    (Or.inl rfl)

/-! ### Open-amount bounds (C3) -/

lemma updateEye_openAmount_invariant (e : Eye) (rs : List Ripple) (g : Rng)
    (h0 : 0 ≤ e.openAmount) (h1 : e.openAmount ≤ e.maxOpen) :
    0 ≤ (updateEye e rs g).1.openAmount
    ∧ (updateEye e rs g).1.openAmount ≤ (updateEye e rs g).1.maxOpen := by
  unfold updateEye
  cases e.state <;> dsimp only <;> (repeat' split) <;>
    constructor <;> (try dsimp only) <;> (try simp [EYE_OPEN_SPEED] at *) <;> omega

/-- C3: A freshly spawned eye satisfies `0 ≤ openAmount ≤ maxOpen`
(assuming the spawned `maxOpen = width/2 - 2` is nonnegative): every slot
of the pool after `spawnEye` is either an untouched old slot or the new
eye, which has `openAmount = 0 ≤ maxOpen`; and one `updateEye` frame
preserves `0 ≤ openAmount ≤ maxOpen`. -/
theorem eye_openAmount_bounds (w h : Int) (es : List Eye) (g g2 : Rng)
    (rs : List Ripple) (e : Eye) (hw : 0 ≤ w.tdiv 2 - 2)
    (h0 : 0 ≤ e.openAmount) (h1 : e.openAmount ≤ e.maxOpen) :
    (∀ e2 ∈ (spawnEye w h es g).1,
        e2 ∈ es ∨ (0 ≤ e2.openAmount ∧ e2.openAmount ≤ e2.maxOpen))
    ∧ 0 ≤ (updateEye e rs g2).1.openAmount
    ∧ (updateEye e rs g2).1.openAmount ≤ (updateEye e rs g2).1.maxOpen := by
  refine ⟨?_, updateEye_openAmount_invariant e rs g2 h0 h1⟩
  intro e2 hmem
  unfold spawnEye at hmem
  rcases hfi : firstInactiveEye es with _ | i <;> rw [hfi] at hmem
  · exact Or.inl hmem
  · dsimp only at hmem
    rcases ht : (tryPlaceY h es i 20 g).1 with _ | newY <;> rw [ht] at hmem
    · exact Or.inl hmem
    · dsimp only at hmem
      rcases List.mem_or_eq_of_mem_set hmem with hold | hnew
      · exact Or.inl hold
      · subst hnew
        exact Or.inr ⟨le_refl 0, hw⟩

/-- C3 witness: concrete instantiation on a 64-wide display and a
half-open eye. -/
theorem eye_openAmount_bounds_witness :
    (∀ e2 ∈ (spawnEye 64 64 initEyes g0).1,
        e2 ∈ initEyes ∨ (0 ≤ e2.openAmount ∧ e2.openAmount ≤ e2.maxOpen))
    ∧ 0 ≤ (updateEye { eyeOpen0 with state := .Opening, openAmount := 10 }
            [] g0).1.openAmount
    ∧ (updateEye { eyeOpen0 with state := .Opening, openAmount := 10 }
          [] g0).1.openAmount
        ≤ (updateEye { eyeOpen0 with state := .Opening, openAmount := 10 }
            [] g0).1.maxOpen :=
  eye_openAmount_bounds 64 64 initEyes g0 g0 []
    { eyeOpen0 with state := .Opening, openAmount := 10 }
    (by decide) (by decide) (by decide)

/-! ### Blink bookkeeping (C6) -/

/-- C6: `blinksLeft` never increases across `updateEye` (final conjunct,
over every state); from `Open`, the eye transitions to `Closing` exactly
when the decremented timer is `≤ 0` and `blinksLeft = 0` (for the
reachable case `blinksLeft ≥ 0`), and on that same tick the ripple pool is
left untouched (no spawn), whereas with `blinksLeft > 0` it transitions to
`BlinkClosing` instead. -/
theorem updateEye_blinks (e : Eye) (rs : List Ripple) (g : Rng)
    (hst : e.state = .Open) (hbl : 0 ≤ e.blinksLeft) :
    ((updateEye e rs g).1.state = .Closing
      ↔ (e.timer - 1 ≤ 0 ∧ e.blinksLeft = 0))
    ∧ (e.timer - 1 ≤ 0 → e.blinksLeft = 0 → (updateEye e rs g).2.1 = rs)
    ∧ (e.timer - 1 ≤ 0 → 0 < e.blinksLeft →
        (updateEye e rs g).1.state = .BlinkClosing)
    ∧ (∀ (e2 : Eye) (rs2 : List Ripple) (g2 : Rng),
        (updateEye e2 rs2 g2).1.blinksLeft ≤ e2.blinksLeft) := by
  have hmono : ∀ (e2 : Eye) (rs2 : List Ripple) (g2 : Rng),
      (updateEye e2 rs2 g2).1.blinksLeft ≤ e2.blinksLeft := by
    intro e2 rs2 g2
    unfold updateEye
    cases e2.state <;> dsimp only <;> (repeat' split) <;> simp <;> omega
  refine ⟨?_, ?_, ?_, hmono⟩
  · simp only [updateEye, hst]
    try dsimp only
    split
    · split <;> simp <;> omega
    · simp
      omega
  · intro ht hbl0
    simp only [updateEye, hst]
    try dsimp only
    rw [if_pos ht, if_neg (by omega)]
  · intro ht hblpos
    simp only [updateEye, hst]
    try dsimp only
    rw [if_pos ht, if_pos hblpos]
    simp

/-- C6 witness: a concrete Open eye with timer 1 and no blinks left closes
on this tick with no ripple spawn. -/
theorem updateEye_blinks_witness :
    ((updateEye { eyeOpen0 with blinksLeft := 0 } [ripple0] g0).1.state = .Closing
      ↔ (({ eyeOpen0 with blinksLeft := 0 } : Eye).timer - 1 ≤ 0
          ∧ ({ eyeOpen0 with blinksLeft := 0 } : Eye).blinksLeft = 0))
    ∧ (({ eyeOpen0 with blinksLeft := 0 } : Eye).timer - 1 ≤ 0 →
        ({ eyeOpen0 with blinksLeft := 0 } : Eye).blinksLeft = 0 →
        (updateEye { eyeOpen0 with blinksLeft := 0 } [ripple0] g0).2.1 = [ripple0])
    ∧ (({ eyeOpen0 with blinksLeft := 0 } : Eye).timer - 1 ≤ 0 →
        0 < ({ eyeOpen0 with blinksLeft := 0 } : Eye).blinksLeft →
        (updateEye { eyeOpen0 with blinksLeft := 0 } [ripple0] g0).1.state
          = .BlinkClosing)
    ∧ (∀ (e2 : Eye) (rs2 : List Ripple) (g2 : Rng),
        (updateEye e2 rs2 g2).1.blinksLeft ≤ e2.blinksLeft) :=
  updateEye_blinks { eyeOpen0 with blinksLeft := 0 } [ripple0] g0 rfl (by decide)

/-! ### The opening scenario (C9) -/

lemma updateEye_opening_step (e : Eye) (rs : List Ripple) (g : Rng)
    (hst : e.state = .Opening) (hlt : e.openAmount + 2 < e.maxOpen) :
    (updateEye e rs g).1.state = .Opening
    ∧ (updateEye e rs g).1.openAmount = e.openAmount + 2
    ∧ (updateEye e rs g).1.maxOpen = e.maxOpen := by
  simp only [updateEye, hst]
  try dsimp only
  rw [if_neg (by simp only [EYE_OPEN_SPEED]; omega)]
  simp [hst, EYE_OPEN_SPEED]

lemma updateEye_opening_done (e : Eye) (rs : List Ripple) (g : Rng)
    (hst : e.state = .Opening) (hge : e.maxOpen ≤ e.openAmount + 2) :
    (updateEye e rs g).1.state = .Open
    ∧ (updateEye e rs g).1.openAmount = e.maxOpen := by
  simp only [updateEye, hst]
  try dsimp only
  rw [if_pos (by simp only [EYE_OPEN_SPEED]; omega)]
  simp

lemma iterEye_opening (k : Nat) : ∀ (e : Eye) (rs : List Ripple) (g : Rng),
    e.state = .Opening → e.openAmount + 2 * (k : Int) < e.maxOpen →
    (iterEye k (e, rs, g)).1.state = .Opening
    ∧ (iterEye k (e, rs, g)).1.openAmount = e.openAmount + 2 * (k : Int)
    ∧ (iterEye k (e, rs, g)).1.maxOpen = e.maxOpen := by
  induction k with
  | zero =>
    intro e rs g hst _
    exact ⟨hst, by simp [iterEye], by simp [iterEye]⟩
  | succ n ih =>
    intro e rs g hst hlt
    have hn : e.openAmount + 2 * (n : Int) < e.maxOpen := by push_cast at hlt ⊢; omega
    obtain ⟨hs1, hs2, hs3⟩ := ih e rs g hst hn
    have hstep := updateEye_opening_step (iterEye n (e, rs, g)).1
      (iterEye n (e, rs, g)).2.1 (iterEye n (e, rs, g)).2.2 hs1
      (by rw [hs2, hs3]; push_cast at hlt ⊢; omega)
    have hred : iterEye (n + 1) (e, rs, g)
        = updateEye (iterEye n (e, rs, g)).1 (iterEye n (e, rs, g)).2.1
            (iterEye n (e, rs, g)).2.2 := rfl
    rw [hred]
    refine ⟨hstep.1, ?_, hstep.2.2.trans hs3⟩
    rw [hstep.2.1, hs2]
    push_cast
    ring

/-- C9: A freshly spawned eye with `maxOpen = 30`, `halfHeight = 25`
(so `openAmount = 0`, state `Opening`, open speed 2) reaches state `Open`
with `openAmount = 30` after exactly 15 `updateEye` frames, and after any
fewer frames is still in `Opening` with `openAmount < 30`. -/
theorem eye_opens_in_15 (e : Eye) (rs : List Ripple) (g : Rng)
    (hst : e.state = .Opening) (h0 : e.openAmount = 0)
    (hm : e.maxOpen = 30) (_hh : e.halfHeight = 25) :
    ((iterEye 15 (e, rs, g)).1.state = .Open
      ∧ (iterEye 15 (e, rs, g)).1.openAmount = 30)
    ∧ ∀ k : Nat, k < 15 →
        (iterEye k (e, rs, g)).1.state = .Opening
        ∧ (iterEye k (e, rs, g)).1.openAmount < 30 := by
  have hfewer : ∀ k : Nat, k < 15 →
      (iterEye k (e, rs, g)).1.state = .Opening
      ∧ (iterEye k (e, rs, g)).1.openAmount < 30 := by
    intro k hk
    have hb : e.openAmount + 2 * (k : Int) < e.maxOpen := by
      rw [h0, hm]; omega
    obtain ⟨ha1, ha2, _⟩ := iterEye_opening k e rs g hst hb
    refine ⟨ha1, ?_⟩
    rw [ha2, h0]
    omega
  refine ⟨?_, hfewer⟩
  have h14 := iterEye_opening 14 e rs g hst (by rw [h0, hm]; norm_num)
  have hstep := updateEye_opening_done (iterEye 14 (e, rs, g)).1
    (iterEye 14 (e, rs, g)).2.1 (iterEye 14 (e, rs, g)).2.2 h14.1
    (by rw [h14.2.1, h14.2.2, h0, hm]; norm_num)
  have h15 : iterEye 15 (e, rs, g)
      = updateEye (iterEye 14 (e, rs, g)).1 (iterEye 14 (e, rs, g)).2.1
          (iterEye 14 (e, rs, g)).2.2 := rfl
  rw [h15]
  have hmo : (iterEye 14 (e, rs, g)).1.maxOpen = 30 := by rw [h14.2.2, hm]
  exact ⟨hstep.1, hstep.2.trans hmo⟩

/-- A concrete freshly spawned eye for the C9 witness. -/
def eyeOpening0 : Eye :=
  { x := 32, y := 31, state := .Opening, openAmount := 0, maxOpen := 30,
    halfHeight := 25, timer := 0, blinksLeft := 2, irisX := 0, irisY := 0,
    irisTargetX := 0, irisTargetY := 0, lookTimer := 20 }

/-- C9 witness: the scenario run on a concrete eye. -/
theorem eye_opens_in_15_witness :
    ((iterEye 15 (eyeOpening0, [], g0)).1.state = .Open
      ∧ (iterEye 15 (eyeOpening0, [], g0)).1.openAmount = 30)
    ∧ ∀ k : Nat, k < 15 →
        (iterEye k (eyeOpening0, [], g0)).1.state = .Opening
        ∧ (iterEye k (eyeOpening0, [], g0)).1.openAmount < 30 :=
  eye_opens_in_15 eyeOpening0 [] g0 rfl rfl rfl rfl

/-! ### Ripple spawning (C5) -/

/-- Index of the first inactive ripple slot. -/
def firstInactiveRipple : List Ripple → Option Nat
  | [] => none
  | r :: rs => if r.active then (firstInactiveRipple rs).map (· + 1) else some 0

lemma randIn_bounds (lo hi : Int) (g : Rng) (hlt : lo < hi) :
    lo ≤ (randIn lo hi g).1 ∧ (randIn lo hi g).1 < hi := by
  unfold randIn
  dsimp only
  have h1 : g 0 % (hi - lo).toNat < (hi - lo).toNat := Nat.mod_lt _ (by omega)
  omega

lemma spawnOneRipple_full (eye : Eye) : ∀ (rs : List Ripple) (g : Rng),
    firstInactiveRipple rs = none → spawnOneRipple eye rs g = (rs, g) := by
  intro rs
  induction rs with
  | nil => intro g _; rfl
  | cons r rs ih =>
    intro g hfi
    unfold firstInactiveRipple at hfi
    by_cases hr : r.active
    · rw [if_pos hr] at hfi
      have hrec : firstInactiveRipple rs = none := by
        cases h2 : firstInactiveRipple rs with
        | none => rfl
        | some j => rw [h2] at hfi; simp at hfi
      unfold spawnOneRipple
      rw [if_pos hr]
      simp [ih g hrec]
    · rw [if_neg hr] at hfi
      simp at hfi

lemma spawnOneRipple_slot (eye : Eye) : ∀ (rs : List Ripple) (i : Nat) (g : Rng),
    firstInactiveRipple rs = some i →
    ∃ s : Int, 1 ≤ s ∧ s ≤ 3 ∧
      (spawnOneRipple eye rs g).1 = rs.set i
        { cx := eye.x, cy := eye.y, radius := eye.halfHeight,
          speed := s, active := true } := by
  intro rs
  induction rs with
  | nil => intro i g hfi; simp [firstInactiveRipple] at hfi
  | cons r rs ih =>
    intro i g hfi
    unfold firstInactiveRipple at hfi
    by_cases hr : r.active
    · rw [if_pos hr] at hfi
      cases h2 : firstInactiveRipple rs with
      | none => rw [h2] at hfi; simp at hfi
      | some j =>
        rw [h2] at hfi
        simp at hfi
        obtain ⟨s, hs1, hs2, hs3⟩ := ih j g h2
        refine ⟨s, hs1, hs2, ?_⟩
        unfold spawnOneRipple
        rw [if_pos hr]
        rw [← hfi]
        simp [hs3]
    · rw [if_neg hr] at hfi
      simp at hfi
      subst hfi
      have hb := randIn_bounds 1 4 g (by norm_num)
      refine ⟨(randIn 1 4 g).1, hb.1, by omega, ?_⟩
      unfold spawnOneRipple
      rw [if_neg hr]
      simp

lemma spawnOneRipple_congr (e1 e2 : Eye) (hx : e1.x = e2.x) (hy : e1.y = e2.y)
    (hhh : e1.halfHeight = e2.halfHeight) : ∀ (rs : List Ripple) (g : Rng),
    spawnOneRipple e1 rs g = spawnOneRipple e2 rs g := by
  intro rs
  induction rs with
  | nil => intro g; rfl
  | cons r rs ih =>
    intro g
    unfold spawnOneRipple
    by_cases hr : r.active <;> simp [hr, hx, hy, hhh, ih]

lemma spawnRippleLoop_congr (e1 e2 : Eye) (hx : e1.x = e2.x) (hy : e1.y = e2.y)
    (hhh : e1.halfHeight = e2.halfHeight) : ∀ (n : Nat) (rs : List Ripple) (g : Rng),
    spawnRippleLoop e1 n rs g = spawnRippleLoop e2 n rs g := by
  intro n
  induction n with
  | zero => intro rs g; rfl
  | succ m ih =>
    intro rs g
    unfold spawnRippleLoop
    rw [spawnOneRipple_congr e1 e2 hx hy hhh rs g, ih]

lemma spawnRipples_congr (e1 e2 : Eye) (hx : e1.x = e2.x) (hy : e1.y = e2.y)
    (hhh : e1.halfHeight = e2.halfHeight) (rs : List Ripple) (g : Rng) :
    spawnRipples e1 rs g = spawnRipples e2 rs g := by
  unfold spawnRipples
  exact spawnRippleLoop_congr e1 e2 hx hy hhh _ rs _

/-- C5: The blink transition Open → BlinkClosing runs `spawnRipples` on the
untouched ripple pool; the spawn count `random(1,4)` is between 1 and 3 and
drives that many attempts of the slot-fill; each single attempt either
finds the first inactive slot and replaces exactly it with a ripple centred
at the eye's `(x, y)` with starting radius the eye's `halfHeight` and a
speed in `{1, 2, 3}`, or — when no inactive slot exists — leaves the pool
(and the stream) unchanged. -/
theorem spawnRipples_spec (eye e : Eye) (rs : List Ripple) (g : Rng) :
    (1 ≤ (randIn 1 4 g).1 ∧ (randIn 1 4 g).1 ≤ 3)
    ∧ (firstInactiveRipple rs = none → spawnOneRipple eye rs g = (rs, g))
    ∧ (∀ i : Nat, firstInactiveRipple rs = some i →
        ∃ s : Int, 1 ≤ s ∧ s ≤ 3 ∧
          (spawnOneRipple eye rs g).1 = rs.set i
            { cx := eye.x, cy := eye.y, radius := eye.halfHeight,
              speed := s, active := true })
    ∧ (e.state = .Open → e.timer - 1 ≤ 0 → 0 < e.blinksLeft →
        (updateEye e rs g).2.1 = (spawnRipples e rs g).1)
    ∧ spawnRipples eye rs g
        = spawnRippleLoop eye (randIn 1 4 g).1.toNat rs (randIn 1 4 g).2 := by
  have hb := randIn_bounds 1 4 g (by norm_num)
  refine ⟨⟨hb.1, by omega⟩, spawnOneRipple_full eye rs g,
    fun i hfi => spawnOneRipple_slot eye rs i g hfi, ?_, rfl⟩
  intro hst ht hbl
  simp only [updateEye, hst]
  try dsimp only
  rw [if_pos ht, if_pos hbl]
  dsimp only
  exact congrArg Prod.fst
    (spawnRipples_congr
      { e with state := .BlinkClosing, timer := e.timer - 1,
               blinksLeft := e.blinksLeft - 1 } e rfl rfl rfl rs g)

/-! ### Spawn placement and spacing (C7, C8) -/

lemma firstInactiveEye_spec : ∀ (es : List Eye) (i : Nat),
    firstInactiveEye es = some i →
    ∃ hlt : i < es.length, (es.get ⟨i, hlt⟩).state = .Inactive := by
  intro es
  induction es with
  | nil => intro i hfi; simp [firstInactiveEye] at hfi
  | cons e es ih =>
    intro i hfi
    unfold firstInactiveEye at hfi
    by_cases he : e.state = .Inactive
    · rw [if_pos he] at hfi
      simp at hfi
      subst hfi
      exact ⟨Nat.succ_pos _, he⟩
    · rw [if_neg he] at hfi
      cases h2 : firstInactiveEye es with
      | none => rw [h2] at hfi; simp at hfi
      | some j =>
        rw [h2] at hfi
        simp at hfi
        subst hfi
        obtain ⟨hj, hjs⟩ := ih j h2
        exact ⟨Nat.succ_lt_succ hj, hjs⟩

lemma tooClose_eq_false (i : Nat) (y : Int) : ∀ (es : List Eye) (k : Nat),
    tooClose i y k es = false → ∀ (j : Nat) (hj : j < es.length),
    k + j ≠ i → (es.get ⟨j, hj⟩).state ≠ .Inactive →
    EYE_MIN_SPACING ≤ ((y - (es.get ⟨j, hj⟩).y)).natAbs := by
  intro es
  induction es with
  | nil => intro k _ j hj; simp at hj
  | cons e es ih =>
    intro k h j hj hne hact
    unfold tooClose at h
    simp only [Bool.or_eq_false_iff] at h
    obtain ⟨h1, h2⟩ := h
    cases j with
    | zero =>
      have hred : (e :: es).get ⟨0, hj⟩ = e := rfl
      rw [hred] at hact ⊢
      have hk : k ≠ i := by simpa using hne
      simp [hk, hact] at h1
      omega
    | succ m =>
      exact ih (k + 1) h2 m (Nat.lt_of_succ_lt_succ hj) (by omega) hact

lemma tooClose_eq_true (i : Nat) (y : Int) : ∀ (es : List Eye) (k j : Nat)
    (hj : j < es.length), k + j ≠ i → (es.get ⟨j, hj⟩).state ≠ .Inactive →
    ((y - (es.get ⟨j, hj⟩).y)).natAbs < EYE_MIN_SPACING →
    tooClose i y k es = true := by
  intro es
  induction es with
  | nil => intro k j hj; simp at hj
  | cons e es ih =>
    intro k j hj hne hact hlt
    unfold tooClose
    cases j with
    | zero =>
      have hred : (e :: es).get ⟨0, hj⟩ = e := rfl
      rw [hred] at hact hlt
      have hk : k ≠ i := by simpa using hne
      simp [hk, hact, hlt]
    | succ m =>
      have := ih (k + 1) m (Nat.lt_of_succ_lt_succ hj) (by omega) hact hlt
      simp [this]

lemma tryPlaceY_valid (h : Int) (es : List Eye) (i : Nat) : ∀ (n : Nat) (g : Rng)
    (y : Int), (tryPlaceY h es i n g).1 = some y → tooClose i y 0 es = false := by
  intro n
  induction n with
  | zero => intro g y hy; simp [tryPlaceY] at hy
  | succ m ih =>
    intro g y hy
    unfold tryPlaceY at hy
    dsimp only at hy
    split at hy
    · exact ih _ y hy
    · simp at hy
      subst hy
      rename_i hc
      simpa using hc

lemma tryPlaceY_stuck (h : Int) (es : List Eye) (i : Nat)
    (hall : ∀ g : Rng,
      tooClose i (randIn (EYE_HALF_HEIGHT + 2) (h - EYE_HALF_HEIGHT - 2) g).1 0 es
        = true) :
    ∀ (n : Nat) (g : Rng), (tryPlaceY h es i n g).1 = none := by
  intro n
  induction n with
  | zero => intro g; rfl
  | succ m ih =>
    intro g
    unfold tryPlaceY
    dsimp only
    rw [if_pos (hall g)]
    exact ih _

lemma spacingOK_set (es : List Eye) (i : Nat) (hi : i < es.length) (enew : Eye)
    (hs : spacingOK es)
    (hnew : ∀ (j : Nat) (hj : j < es.length), j ≠ i →
      (es.get ⟨j, hj⟩).state ≠ .Inactive →
      EYE_MIN_SPACING ≤ ((enew.y - (es.get ⟨j, hj⟩).y)).natAbs) :
    spacingOK (es.set i enew) := by
  have hl : (es.set i enew).length = es.length := es.length_set i enew
  have hget : ∀ (c : Fin (es.set i enew).length) (hc : c.1 < es.length),
      (es.set i enew).get c
        = if c.1 = i then enew else es.get ⟨c.1, hc⟩ := by
    intro c hc
    by_cases hci : c.1 = i
    · simp [List.get_eq_getElem, hci, List.getElem_set_self]
    · simp [List.get_eq_getElem, hci,
        List.getElem_set_of_ne (fun hcon => hci hcon.symm)]
  intro a b hab hsa hsb
  have ha2 : a.1 < es.length := by have := a.2; omega
  have hb2 : b.1 < es.length := by have := b.2; omega
  rw [hget a ha2] at hsa ⊢
  rw [hget b hb2] at hsb ⊢
  by_cases hai : a.1 = i <;> by_cases hbi : b.1 = i
  · exact absurd (hai.trans hbi.symm) hab
  · rw [if_pos hai] at hsa ⊢
    rw [if_neg hbi] at hsb ⊢
    exact hnew b.1 hb2 hbi hsb
  · rw [if_neg hai] at hsa ⊢
    rw [if_pos hbi] at hsb ⊢
    have := hnew a.1 ha2 hai hsa
    omega
  · rw [if_neg hai] at hsa ⊢
    rw [if_neg hbi] at hsb ⊢
    exact hs ⟨a.1, ha2⟩ ⟨b.1, hb2⟩ hab hsa hsb

lemma spawnEye_spacing (w h : Int) (es : List Eye) (g : Rng)
    (hs : spacingOK es) : spacingOK (spawnEye w h es g).1 := by
  unfold spawnEye
  cases hfi : firstInactiveEye es with
  | none => exact hs
  | some i =>
    dsimp only
    cases hty : (tryPlaceY h es i 20 g).1 with
    | none => exact hs
    | some y =>
      dsimp only
      obtain ⟨hi, _⟩ := firstInactiveEye_spec es i hfi
      have htc : tooClose i y 0 es = false := tryPlaceY_valid h es i 20 g y hty
      refine spacingOK_set es i hi _ hs ?_
      intro j hj hjne hjact
      exact tooClose_eq_false i y es 0 htc j hj (by omega) hjact

/-- The pointwise relation between a pool and its per-frame update: the
position is unchanged and activity never appears from nowhere. -/
lemma updateEyes_rel : ∀ (es : List Eye) (rs : List Ripple) (g : Rng),
    List.Forall₂ (fun a b => b.y = a.y ∧
      (b.state ≠ EyeState.Inactive → a.state ≠ EyeState.Inactive))
      es (updateEyes es rs g).1 := by
  intro es
  induction es with
  | nil => intro rs g; exact List.Forall₂.nil
  | cons e es ih =>
    intro rs g
    unfold updateEyes
    by_cases he : e.state = .Inactive
    · rw [if_pos he]
      dsimp only
      exact List.Forall₂.cons ⟨rfl, fun hne => hne⟩ (ih _ _)
    · rw [if_neg he]
      dsimp only
      exact List.Forall₂.cons ⟨updateEye_y e rs g, fun _ => he⟩ (ih _ _)

lemma spacingOK_of_rel (es es' : List Eye)
    (hrel : List.Forall₂ (fun a b => b.y = a.y ∧
      (b.state ≠ EyeState.Inactive → a.state ≠ EyeState.Inactive)) es es')
    (hs : spacingOK es) : spacingOK es' := by
  intro a b hab hsa hsb
  have hlen := hrel.length_eq
  have ha2 : a.1 < es.length := by have := a.2; omega
  have hb2 : b.1 < es.length := by have := b.2; omega
  obtain ⟨hya, hsa'⟩ := hrel.get ha2 a.2
  obtain ⟨hyb, hsb'⟩ := hrel.get hb2 b.2
  have hmain := hs ⟨a.1, ha2⟩ ⟨b.1, hb2⟩ hab (hsa' hsa) (hsb' hsb)
  have hga : es'.get a = es'.get ⟨a.1, a.2⟩ := rfl
  have hgb : es'.get b = es'.get ⟨b.1, b.2⟩ := rfl
  rw [hga, hgb, hya, hyb]
  exact hmain

/-- C7: The minimum vertical spacing `EYE_MIN_SPACING = 55` between any two
simultaneously active eyes is established by `spawnEye`'s rejection
sampling (a pool satisfying it still satisfies it after a spawn) and is
preserved by the per-frame eye update, which never changes an eye's `x` or
`y` and never activates an inactive slot. -/
theorem eye_spacing (w h : Int) (es : List Eye) (g g2 : Rng) (rs : List Ripple)
    (hs : spacingOK es) :
    spacingOK (spawnEye w h es g).1
    ∧ spacingOK (updateEyes es rs g2).1
    ∧ (∀ (e : Eye) (rs2 : List Ripple) (g3 : Rng),
        (updateEye e rs2 g3).1.y = e.y ∧ (updateEye e rs2 g3).1.x = e.x) :=
  ⟨spawnEye_spacing w h es g hs,
   spacingOK_of_rel es _ (updateEyes_rel es rs g2) hs,
   fun e rs2 g3 => ⟨updateEye_y e rs2 g3, updateEye_x e rs2 g3⟩⟩

/-- A pool with two active, well-spaced eyes. -/
def eyesPair : List Eye :=
  { eyeOpen0 with y := 31 } :: { eyeOpen0 with y := 100 }
    :: List.replicate 6 eyeZero

/-- C7 witness: the spacing invariant of a concrete two-eye pool survives a
spawn call and a frame update. -/
theorem eye_spacing_witness :
    spacingOK (spawnEye 64 256 eyesPair g0).1
    ∧ spacingOK (updateEyes eyesPair [] g0).1
    ∧ (∀ (e : Eye) (rs2 : List Ripple) (g3 : Rng),
        (updateEye e rs2 g3).1.y = e.y ∧ (updateEye e rs2 g3).1.x = e.x) :=
  eye_spacing 64 256 eyesPair g0 g0 [] (by decide)

/-- A pool with exactly one active eye (at `y = 31`). -/
def eyesOne : List Eye := eyeOpen0 :: List.replicate 7 eyeZero

/-- C8: When some active eye is so placed that every candidate `y` in the
safe band is closer to it than `EYE_MIN_SPACING` (e.g. the band is narrower
than the spacing), all 20 rejection-sampling attempts fail and `spawnEye`
returns with the pool completely unchanged — no slot is consumed, no eye
modified, and with exactly one active eye before the call the active count
stays exactly 1. -/
theorem spawnEye_gives_up (w h : Int) (es : List Eye) (g : Rng)
    (j : Fin es.length) (hone : countActive es = 1)
    (hact : (es.get j).state ≠ .Inactive)
    (hband : EYE_HALF_HEIGHT + 2 < h - EYE_HALF_HEIGHT - 2)
    (hfail : ∀ y : Int, EYE_HALF_HEIGHT + 2 ≤ y → y < h - EYE_HALF_HEIGHT - 2 →
      ((y - (es.get j).y)).natAbs < EYE_MIN_SPACING) :
    (spawnEye w h es g).1 = es ∧ countActive (spawnEye w h es g).1 = 1 := by
  suffices hmain : (spawnEye w h es g).1 = es by
    exact ⟨hmain, by rw [hmain, hone]⟩
  unfold spawnEye
  cases hfi : firstInactiveEye es with
  | none => rfl
  | some i =>
    obtain ⟨hi, hinact⟩ := firstInactiveEye_spec es i hfi
    have hne : (0 : Nat) + j.1 ≠ i := by
      intro hcon
      apply hact
      have hji : j = (⟨i, hi⟩ : Fin es.length) :=
        Fin.ext (show j.1 = i by omega)
      rw [hji]
      exact hinact
    have hall : ∀ g2 : Rng,
        tooClose i (randIn (EYE_HALF_HEIGHT + 2) (h - EYE_HALF_HEIGHT - 2) g2).1
          0 es = true := by
      intro g2
      have hb := randIn_bounds (EYE_HALF_HEIGHT + 2) (h - EYE_HALF_HEIGHT - 2)
        g2 hband
      exact tooClose_eq_true i _ es 0 j.1 j.2 hne hact (hfail _ hb.1 hb.2)
    dsimp only
    rw [tryPlaceY_stuck h es i hall 20 g]

/-- C8 witness: on a 64-pixel-high display the safe band is `[27, 37)`,
entirely within 55 of the single active eye at `y = 31`, so a second spawn
leaves the one-eye pool untouched. -/
theorem spawnEye_gives_up_witness :
    (spawnEye 64 64 eyesOne g0).1 = eyesOne
    ∧ countActive (spawnEye 64 64 eyesOne g0).1 = 1 :=
  spawnEye_gives_up 64 64 eyesOne g0 ⟨0, by decide⟩ (by decide) (by decide)
    (by decide)
    (by
      intro y h1 h2
      have hy : (eyesOne.get ⟨0, by decide⟩).y = 31 := rfl
      rw [hy]
      simp only [EYE_HALF_HEIGHT, EYE_MIN_SPACING] at *
      omega)

/-! ### Population replenishment (C1) -/

lemma countActive_set_succ : ∀ (es : List Eye) (i : Nat) (hi : i < es.length)
    (enew : Eye), (es.get ⟨i, hi⟩).state = .Inactive →
    enew.state ≠ .Inactive →
    countActive (es.set i enew) = countActive es + 1 := by
  intro es
  induction es with
  | nil => intro i hi; simp at hi
  | cons e es ih =>
    intro i hi enew hinact hact
    cases i with
    | zero =>
      have hred : (e :: es).get ⟨0, hi⟩ = e := rfl
      rw [hred] at hinact
      simp [List.set, countActive, hinact, hact]
      omega
    | succ m =>
      have hm : m < es.length := Nat.lt_of_succ_lt_succ hi
      have hrec := ih m hm enew hinact hact
      simp [List.set, countActive, hrec]
      omega

lemma spawnEye_count (w h : Int) (es : List Eye) (g : Rng) :
    countActive (spawnEye w h es g).1 = countActive es ∨
    countActive (spawnEye w h es g).1 = countActive es + 1 := by
  unfold spawnEye
  cases hfi : firstInactiveEye es with
  | none => exact Or.inl rfl
  | some i =>
    dsimp only
    cases hty : (tryPlaceY h es i 20 g).1 with
    | none => exact Or.inl rfl
    | some y =>
      dsimp only
      obtain ⟨hi, hinact⟩ := firstInactiveEye_spec es i hfi
      exact Or.inr (countActive_set_succ es i hi _ hinact (by simp))

lemma spawnLoop2_count (w h : Int) : ∀ (n : Nat) (es : List Eye) (g : Rng),
    countActive es ≤ countActive (spawnLoop2 w h n es g).1 ∧
    countActive (spawnLoop2 w h n es g).1 ≤ countActive es + n := by
  intro n
  induction n with
  | zero => intro es g; simp [spawnLoop2]
  | succ m ih =>
    intro es g
    unfold spawnLoop2
    dsimp only
    have h1 := spawnEye_count w h es g
    have h2 := ih (spawnEye w h es g).1 (spawnEye w h es g).2
    rcases h1 with h1 | h1 <;> omega

/-- C1 counterexample: the claim "at least 2 active eyes after the
replenishment step" fails on a reachable frame.  On a 64-pixel-high
display the safe band `[27, 37)` cannot hold two eyes 55 apart; starting
from the zero-initialized pool (the first frame), the while-loop's first
`spawnEye` call succeeds but the second fails all 20 attempts (the loop
increments its counter regardless), leaving exactly 1 active eye. -/
theorem ensurePopulation_below_two :
    ¬ (2 ≤ countActive (drawDigitalEyes 64 64 initEyes [] g0).1.1) := by decide

lemma updateEyes_count_le : ∀ (es : List Eye) (rs : List Ripple) (g : Rng),
    countActive (updateEyes es rs g).1 ≤ countActive es := by
  intro es
  induction es with
  | nil => intro rs g; simp [updateEyes]
  | cons e es ih =>
    intro rs g
    unfold updateEyes
    by_cases he : e.state = .Inactive
    · rw [if_pos he]
      have := ih rs g
      simp only [countActive]
      omega
    · rw [if_neg he]
      have := ih (updateEye e rs g).2.1 (updateEye e rs g).2.2
      simp only [countActive, if_neg he]
      split <;> omega

/-- C1 (amended): After the eyes section of a frame — update loop plus the
replenishment while-loop and probabilistic spawn — the number of active
eyes never exceeds 5 (given at most 5 were active at the start of the
frame, as holds on every reachable frame), and replenishment never
decreases the post-update active count; the count is NOT guaranteed to
reach 2: the while-loop increments its counter whether or not `spawnEye`
succeeded, so failed rejection sampling can leave fewer than 2 active
eyes. -/
theorem ensurePopulation_bounds (w h : Int) (es : List Eye) (rs : List Ripple)
    (g : Rng) (h5 : countActive es ≤ 5) :
    countActive (drawDigitalEyes w h es rs g).1.1 ≤ 5
    ∧ countActive (updateEyes es rs g).1
        ≤ countActive (drawDigitalEyes w h es rs g).1.1 := by
  unfold drawDigitalEyes ensurePopulation
  try dsimp only
  have hb := updateEyes_count_le es rs g
  have hl := spawnLoop2_count w h (2 - countActive es) (updateEyes es rs g).1
    (updateEyes es rs g).2.2
  split
  · try dsimp only
    split
    · have hsp := spawnEye_count w h
        (spawnLoop2 w h (2 - countActive es) (updateEyes es rs g).1
          (updateEyes es rs g).2.2).1
        (randIn 0 90
          (spawnLoop2 w h (2 - countActive es) (updateEyes es rs g).1
            (updateEyes es rs g).2.2).2).2
      rcases hsp with hsp | hsp <;>
        constructor <;> omega
    · try dsimp only
      constructor <;> omega
  · try dsimp only
    constructor <;> omega

/-- C1 witness for the amended bound: the concrete first frame on a 64x64
display stays within the bounds. -/
theorem ensurePopulation_bounds_witness :
    countActive (drawDigitalEyes 64 64 initEyes [] g0).1.1 ≤ 5
    ∧ countActive (updateEyes initEyes [] g0).1
        ≤ countActive (drawDigitalEyes 64 64 initEyes [] g0).1.1 :=
  ensurePopulation_bounds 64 64 initEyes [] g0 (by decide)

end AnalogDigital
